import Mathlib

/-!
Verification development for the zepp-export repository.

Shallow embedding, translated from the Python sources:
 - zepp_export/decoders.py  (base64 / JSON decoders)
 - zepp_export/client.py    (sleep reconciliation, stage tables, stress)
 - zepp_export/export.py    (Apple-Health-style XML export)

Conventions of the embedding:
 - Python byte strings are `List Nat` with entries < 256.
 - Python `str` values are either Lean `String`s or, inside the JSON model,
   lists of unicode code points (`List Nat`), because Python `str` may hold
   lone surrogates that Lean `Char` cannot.
 - Fallible Python code (raising exceptions) is modelled with `Except String`
   or `Option`; the error message is a short tag, not the full Python text.
 - `datetime.fromtimestamp` in client.py converts in the server's local
   timezone; the model fixes that local timezone to UTC.
 - `json.loads` on bytes detects UTF-16/32 via BOM sniffing; the model covers
   the UTF-8 case, which is the one the API exercises.
-/

namespace ZeppExport

/-! ## Small string utilities (Python %02d / %04d / f-string formatting) -/

/-- `%02d` zero-padded formatting of a natural number. -/
def pad2 (n : Nat) : String :=
  if n < 10 then "0" ++ toString n else toString n

/-- `%04d` zero-padded formatting of a natural number. -/
def pad4 (n : Nat) : String :=
  if n < 10 then "000" ++ toString n
  else if n < 100 then "00" ++ toString n
  else if n < 1000 then "0" ++ toString n
  else toString n

/-- Python `int()` truncation (toward zero) of a seconds count divided by 60,
as in `int((end - start).total_seconds() / 60)` (client.py line 293). -/
def truncDiv60 (n : Int) : Int :=
  if 0 ≤ n then (n.toNat / 60 : Nat) else -(((-n).toNat / 60 : Nat))

/-- Rounding to the nearest minute (half away from zero), the operation the
spec sentence "round((end - start) seconds / 60)" describes, for nonnegative
elapsed seconds.  Used only to state the spec's claim C2. -/
def roundDiv60 (n : Nat) : Nat := (n + 30) / 60

/-! ## Proleptic Gregorian calendar (Python `datetime` date arithmetic) -/

structure Date where
  year : Nat
  month : Nat
  day : Nat
  deriving DecidableEq, Repr

/-- Gregorian leap-year rule, as implemented by Python `datetime`. -/
def isLeap (y : Nat) : Bool :=
  (y % 4 == 0 && y % 100 != 0) || y % 400 == 0

def daysInMonth (y m : Nat) : Nat :=
  if m = 2 then (if isLeap y then 29 else 28)
  else if m = 4 ∨ m = 6 ∨ m = 9 ∨ m = 11 then 30
  else 31

/-- The calendar day after `d` (for a valid Gregorian date `d`). -/
def nextDay (d : Date) : Date :=
  if d.day < daysInMonth d.year d.month then ⟨d.year, d.month, d.day + 1⟩
  else if d.month < 12 then ⟨d.year, d.month + 1, 1⟩
  else ⟨d.year + 1, 1, 1⟩

/-- `d + n` days, Python `date + timedelta(days=n)`. -/
def addDays (d : Date) : Nat → Date
  | 0 => d
  | n + 1 => nextDay (addDays d n)

/-- Strict lexicographic order on calendar dates. -/
def dateLt (a b : Date) : Prop :=
  a.year < b.year ∨ (a.year = b.year ∧
    (a.month < b.month ∨ (a.month = b.month ∧ a.day < b.day)))

instance : DecidablePred fun p : Date × Date => dateLt p.1 p.2 := fun _ => by
  unfold dateLt; infer_instance

/-- A datetime: calendar date plus second-of-day (0 ≤ sod < 86400 whenever
built by the functions below). -/
structure DateTime where
  date : Date
  sod : Nat
  deriving DecidableEq, Repr

/-- `datetime.fromtimestamp(t)` for a nonnegative epoch-seconds value, with
the server local timezone modelled as UTC. -/
def epochToDT (t : Nat) : DateTime :=
  ⟨addDays ⟨1970, 1, 1⟩ (t / 86400), t % 86400⟩

/-- `strftime("%Y-%m-%d")`. -/
def formatDate (d : Date) : String :=
  pad4 d.year ++ "-" ++ pad2 d.month ++ "-" ++ pad2 d.day

/-- `datetime.fromtimestamp(t).strftime("%Y-%m-%d")` (client.py line 244-245). -/
def epochToDateStr (t : Nat) : String :=
  formatDate (epochToDT t).date

/-- `strftime("%H:%M:%S")` from a second-of-day count. -/
def formatTime (sod : Nat) : String :=
  pad2 (sod / 3600) ++ ":" ++ pad2 (sod % 3600 / 60) ++ ":" ++ pad2 (sod % 60)

/-- `strftime("%z")` of `timezone(timedelta(hours=offH))`: sign then HHMM. -/
def offsetStr (offH : Int) : String :=
  (if offH < 0 then "-" else "+") ++ pad2 offH.natAbs ++ "00"

/-- `_apple_date` (export.py line 46-48): "YYYY-MM-DD HH:MM:SS +HHMM". -/
def appleDate (dt : DateTime) (offH : Int) : String :=
  formatDate dt.date ++ " " ++ formatTime dt.sod ++ " " ++ offsetStr offH

/-- `datetime.strptime(date_str, "%Y-%m-%d")`, assuming a well-formed date
string (strptime raises on malformed input; the model returns a fixed junk
date there, a case no claim exercises). -/
def parseDate (s : String) : Date :=
  match s.toList with
  | [y1, y2, y3, y4, '-', m1, m2, '-', d1, d2] =>
    ⟨((y1.toNat - 48) * 1000 + (y2.toNat - 48) * 100 + (y3.toNat - 48) * 10 + (y4.toNat - 48)),
     ((m1.toNat - 48) * 10 + (m2.toNat - 48)),
     ((d1.toNat - 48) * 10 + (d2.toNat - 48))⟩
  | _ => ⟨1900, 1, 1⟩

/-- `_minute_to_datetime` (export.py line 51-61): midnight of the base date in
the configured fixed offset, plus `minute` minutes.  The offset does not move
the civil clock reading, so the datetime value is offset-independent; the
offset reappears only in formatting (`_apple_date`). -/
def minuteToDT (dateStr : String) (minute : Nat) : DateTime :=
  ⟨addDays (parseDate dateStr) (minute * 60 / 86400), minute * 60 % 86400⟩

/-! ## Base64 (CPython `base64.b64decode`, non-strict mode)

`base64.b64decode(s)` on a `str` first encodes it to ASCII bytes
(`_bytes_from_decode_data`): a non-ASCII character raises a *plain*
`ValueError` ("string argument should contain only ASCII characters"), which
is not a `binascii.Error` and is not caught by the decoders' except clauses.
The ASCII bytes then go to `binascii.a2b_base64` (default
`validate=False`), which *skips* ASCII characters outside the base64
alphabet, handles `=` padding statefully, and raises `binascii.Error` only
for a bad quad/padding structure at the end of input.  The state machine
below is a direct translation of the C loop (quad position, left-over bits,
pending pad count). -/

/-- The two exception classes `base64.b64decode` can raise: `binascii.Error`
(caught by `decode_summary`/`decode_heart_rate`) versus the plain
`ValueError` from the str→ASCII step (not caught by them). -/
inductive B64Err where
  | binascii (msg : String)
  | valueError (msg : String)
  deriving DecidableEq, Repr

/-- Value of a base64 alphabet character, `none` for non-alphabet characters. -/
def b64val (c : Char) : Option Nat :=
  let n := c.toNat
  if 65 ≤ n ∧ n ≤ 90 then some (n - 65)
  else if 97 ≤ n ∧ n ≤ 122 then some (n - 97 + 26)
  else if 48 ≤ n ∧ n ≤ 57 then some (n - 48 + 52)
  else if n = 43 then some 62
  else if n = 47 then some 63
  else none

/-- Character for a 6-bit value (standard base64 alphabet). -/
def b64chr (v : Nat) : Char :=
  if v < 26 then Char.ofNat (65 + v)
  else if v < 52 then Char.ofNat (97 + (v - 26))
  else if v < 62 then Char.ofNat (48 + (v - 52))
  else if v = 62 then '+'
  else '/'

/-- The `a2b_base64` scan loop.  `qp` is the quad position (0-3), `lc` the
left-over bits of the previous character, `pads` the pending pad count, `acc`
the output bytes in reverse. -/
def a2bAux : List Char → Nat → Nat → Nat → List Nat → Except String (List Nat)
  | [], qp, _, _, acc =>
    if qp = 0 then .ok acc.reverse
    else if qp = 1 then .error "Invalid base64-encoded string"
    else .error "Incorrect padding"
  | c :: rest, qp, lc, pads, acc =>
    if c = '=' then
      if 2 ≤ qp then
        if 4 ≤ qp + (pads + 1) then .ok acc.reverse
        else a2bAux rest qp lc (pads + 1) acc
      else a2bAux rest qp lc pads acc
    else
      match b64val c with
      | none => a2bAux rest qp lc pads acc
      | some v =>
        match qp with
        | 0 => a2bAux rest 1 v 0 acc
        | 1 => a2bAux rest 2 (v % 16) 0 ((lc * 4 + v / 16) :: acc)
        | 2 => a2bAux rest 3 (v % 4) 0 ((lc * 16 + v / 4) :: acc)
        | _ => a2bAux rest 0 0 0 ((lc * 64 + v) :: acc)

/-- `base64.b64decode(s)` (default non-strict mode) on a text input: the
str→ASCII check first, then the `a2b_base64` scan. -/
def b64decode (s : String) : Except B64Err (List Nat) :=
  if s.toList.all (fun c => c.toNat < 128) then
    match a2bAux s.toList 0 0 0 [] with
    | .ok bs => .ok bs
    | .error m => .error (.binascii m)
  else .error (.valueError "string argument should contain only ASCII characters")

/-- `base64.b64encode` of a byte sequence, as a character list. -/
def b64encodeBytes : List Nat → List Char
  | [] => []
  | [b1] => [b64chr (b1 / 4), b64chr (b1 % 4 * 16), '=', '=']
  | [b1, b2] => [b64chr (b1 / 4), b64chr (b1 % 4 * 16 + b2 / 16),
                 b64chr (b2 % 16 * 4), '=']
  | b1 :: b2 :: b3 :: rest =>
    b64chr (b1 / 4) :: b64chr (b1 % 4 * 16 + b2 / 16) ::
    b64chr (b2 % 16 * 4 + b3 / 64) :: b64chr (b3 % 64) :: b64encodeBytes rest

/-- `base64.b64encode` as a `String`. -/
def b64encode (bs : List Nat) : String :=
  String.mk (b64encodeBytes bs)

/-! ## Byte decoding for `json.loads` (`bytes.decode(enc, "surrogatepass")`)

`json.loads` on bytes runs `detect_encoding` (BOM sniffing plus a
null-byte-pattern heuristic for the first four bytes) and decodes with the
`surrogatepass` error handler, which admits encoded surrogate code points
but still rejects every other malformation (`UnicodeDecodeError`). -/

/-- Is `b` a UTF-8 continuation byte? -/
def utf8cont (b : Nat) : Prop := 0x80 ≤ b ∧ b ≤ 0xBF

instance : DecidablePred utf8cont := fun _ => by unfold utf8cont; infer_instance

/-- UTF-8 decoding of a byte list to unicode code points with the
`surrogatepass` handler: three-byte encodings of surrogates are admitted,
overlong forms and all other malformations are `none`
(`UnicodeDecodeError`).  The fuel argument only bounds the recursion; the
initial value passed by `utf8Decode` can never run out because every step
consumes at least one byte. -/
def utf8Aux : Nat → List Nat → List Nat → Option (List Nat)
  | 0, _, _ => none
  | _ + 1, [], acc => some acc.reverse
  | f + 1, b :: rest, acc =>
    if b < 0x80 then utf8Aux f rest (b :: acc)
    else if b < 0xC2 then none
    else if b ≤ 0xDF then
      match rest with
      | b1 :: rest' =>
        if utf8cont b1 then utf8Aux f rest' (((b - 0xC0) * 64 + (b1 - 0x80)) :: acc)
        else none
      | [] => none
    else if b ≤ 0xEF then
      match rest with
      | b1 :: b2 :: rest' =>
        let cp := (b - 0xE0) * 4096 + (b1 - 0x80) * 64 + (b2 - 0x80)
        if utf8cont b1 ∧ utf8cont b2 ∧ 0x800 ≤ cp then
          utf8Aux f rest' (cp :: acc)
        else none
      | _ => none
    else if b ≤ 0xF4 then
      match rest with
      | b1 :: b2 :: b3 :: rest' =>
        let cp := (b - 0xF0) * 262144 + (b1 - 0x80) * 4096 + (b2 - 0x80) * 64 + (b3 - 0x80)
        if utf8cont b1 ∧ utf8cont b2 ∧ utf8cont b3 ∧ 0x10000 ≤ cp ∧ cp ≤ 0x10FFFF then
          utf8Aux f rest' (cp :: acc)
        else none
      | _ => none
    else none

def utf8Decode (bs : List Nat) : Option (List Nat) :=
  utf8Aux (bs.length + 1) bs []

/-- Pair bytes into 16-bit units (little- or big-endian); an odd byte count
is truncated data, a `UnicodeDecodeError` even under `surrogatepass`. -/
def utf16Units (le : Bool) : List Nat → Option (List Nat)
  | [] => some []
  | b1 :: b2 :: rest =>
    (utf16Units le rest).map fun us =>
      (if le then b2 * 256 + b1 else b1 * 256 + b2) :: us
  | [_] => none

/-- Combine UTF-16 surrogate pairs; under `surrogatepass` an unpaired
surrogate unit is kept as a lone code point. -/
def combineSurrogates : List Nat → List Nat
  | [] => []
  | u1 :: u2 :: rest =>
    if 0xD800 ≤ u1 ∧ u1 ≤ 0xDBFF ∧ 0xDC00 ≤ u2 ∧ u2 ≤ 0xDFFF then
      (0x10000 + (u1 - 0xD800) * 1024 + (u2 - 0xDC00)) :: combineSurrogates rest
    else u1 :: combineSurrogates (u2 :: rest)
  | [u] => [u]

/-- `bytes.decode("utf-16-le"/"utf-16-be", "surrogatepass")`. -/
def utf16Decode (le : Bool) (bs : List Nat) : Option (List Nat) :=
  (utf16Units le bs).map combineSurrogates

/-- `bytes.decode("utf-32-le"/"utf-32-be", "surrogatepass")`: four-byte code
points; values above 0x10FFFF and truncated data are `UnicodeDecodeError`
(surrogate code points pass). -/
def utf32Decode (le : Bool) : List Nat → Option (List Nat)
  | [] => some []
  | b1 :: b2 :: b3 :: b4 :: rest =>
    let cp := if le then b1 + b2 * 256 + b3 * 65536 + b4 * 16777216
              else b4 + b3 * 256 + b2 * 65536 + b1 * 16777216
    if cp ≤ 0x10FFFF then (utf32Decode le rest).map (cp :: ·) else none
  | _ => none

/-- `json.detect_encoding` followed by the corresponding
`bytes.decode(enc, "surrogatepass")`: UTF-32/16 BOMs (consumed by the
BOM-aware codecs), the UTF-8 BOM (`utf-8-sig`), the null-byte-pattern
heuristic on the first four (or two) bytes for BOM-less UTF-16/32 variants
(no BOM consumed), and UTF-8 otherwise. -/
def jsonBytesToText (bs : List Nat) : Option (List Nat) :=
  match bs with
  | 0 :: 0 :: 254 :: 255 :: rest => utf32Decode false rest
  | 255 :: 254 :: 0 :: 0 :: rest => utf32Decode true rest
  | 254 :: 255 :: rest => utf16Decode false rest
  | 255 :: 254 :: rest => utf16Decode true rest
  | 239 :: 187 :: 191 :: rest => utf8Decode rest
  | b0 :: b1 :: b2 :: b3 :: _ =>
    if b0 = 0 then
      (if b1 ≠ 0 then utf16Decode false bs else utf32Decode false bs)
    else if b1 = 0 then
      (if b2 ≠ 0 ∨ b3 ≠ 0 then utf16Decode true bs else utf32Decode true bs)
    else utf8Decode bs
  | [b0, b1] =>
    if b0 = 0 then utf16Decode false bs
    else if b1 = 0 then utf16Decode true bs
    else utf8Decode bs
  | _ => utf8Decode bs

/-! ## JSON (`json.loads`)

Values are modelled structurally.  Python parses JSON numbers to int/float;
the model keeps the sign, integer part, fraction digits and exponent of the
literal.  Python `str` results may contain lone surrogates, so JSON strings
are lists of code points.  `json.loads` accepts `NaN`/`Infinity`/`-Infinity`
by default, and duplicate object keys collapse last-wins with first-insertion
order (`dict(pairs)` semantics). -/

inductive Json where
  | null
  | bool (b : Bool)
  | num (neg : Bool) (ip : Nat) (frac : List Nat) (ex : Option Int)
  | nan
  | inf (neg : Bool)
  | str (cps : List Nat)
  | arr (xs : List Json)
  | obj (fields : List (List Nat × Json))

/-- Code points of a Lean string literal (for JSON keys and test inputs). -/
def strCps (s : String) : List Nat := s.toList.map Char.toNat

def isWsCp (c : Nat) : Bool := c == 32 || c == 9 || c == 10 || c == 13

/-- Skip JSON whitespace. -/
def skipWs (s : List Nat) : List Nat := s.dropWhile isWsCp

def isDigitCp (c : Nat) : Bool := 48 ≤ c && c ≤ 57

def digitsToNat (ds : List Nat) : Nat :=
  ds.foldl (fun a d => a * 10 + (d - 48)) 0

/-- Does `s` start with the literal `lit`? -/
def litPre (lit : String) (s : List Nat) : Bool :=
  (strCps lit).isPrefixOf s

def hexVal (c : Nat) : Option Nat :=
  if 48 ≤ c ∧ c ≤ 57 then some (c - 48)
  else if 65 ≤ c ∧ c ≤ 70 then some (c - 55)
  else if 97 ≤ c ∧ c ≤ 102 then some (c - 87)
  else none

/-- Parse exactly four hex digits (the XXXX of a \uXXXX escape). -/
def hex4 : List Nat → Option (Nat × List Nat)
  | a :: b :: c :: d :: r =>
    match hexVal a, hexVal b, hexVal c, hexVal d with
    | some va, some vb, some vc, some vd => some (va * 4096 + vb * 256 + vc * 16 + vd, r)
    | _, _, _, _ => none
  | _ => none

/-- `py_scanstring`: scan a JSON string body (after the opening quote),
handling escapes, \uXXXX and surrogate pairs, rejecting raw control
characters (strict mode). -/
def parseStrAux : Nat → List Nat → List Nat → Except String (List Nat × List Nat)
  | 0, _, _ => .error "depth"
  | f + 1, s, acc =>
    match s with
    | [] => .error "Unterminated string"
    | 34 :: rest => .ok (acc.reverse, rest)
    | 92 :: esc =>
      match esc with
      | 34 :: r => parseStrAux f r (34 :: acc)
      | 92 :: r => parseStrAux f r (92 :: acc)
      | 47 :: r => parseStrAux f r (47 :: acc)
      | 98 :: r => parseStrAux f r (8 :: acc)
      | 102 :: r => parseStrAux f r (12 :: acc)
      | 110 :: r => parseStrAux f r (10 :: acc)
      | 114 :: r => parseStrAux f r (13 :: acc)
      | 116 :: r => parseStrAux f r (9 :: acc)
      | 117 :: r =>
        match hex4 r with
        | none => .error "Invalid hex escape"
        | some (u, r2) =>
          if 0xD800 ≤ u ∧ u < 0xDC00 then
            match r2 with
            | 92 :: 117 :: r3 =>
              match hex4 r3 with
              | none => .error "Invalid hex escape"
              | some (u2, r4) =>
                if 0xDC00 ≤ u2 ∧ u2 < 0xE000 then
                  parseStrAux f r4 ((0x10000 + (u - 0xD800) * 1024 + (u2 - 0xDC00)) :: acc)
                else parseStrAux f r2 (u :: acc)
            | _ => parseStrAux f r2 (u :: acc)
          else parseStrAux f r2 (u :: acc)
      | _ => .error "Invalid escape"
    | c :: rest =>
      if c < 32 then .error "Invalid control character"
      else parseStrAux f rest (c :: acc)

/-- The NUMBER_RE regex of the json module:
(-?(0|[1-9]d*))(.d+)?([eE][-+]?d+)? with maximal munch per group. -/
def parseNumber (s : List Nat) : Except String (Json × List Nat) :=
  let (neg, s1) := match s with | 45 :: r => (true, r) | _ => (false, s)
  match s1 with
  | 48 :: r =>
    let (frac, r2) :=
      match r with
      | 46 :: rf =>
        let ds := rf.takeWhile isDigitCp
        if ds = [] then ([], r) else (ds.map (· - 48), rf.dropWhile isDigitCp)
      | _ => ([], r)
    let (ex, r3) := parseExp r2
    .ok (.num neg 0 frac ex, r3)
  | c :: _ =>
    if isDigitCp c then
      let ip := s1.takeWhile isDigitCp
      let r := s1.dropWhile isDigitCp
      let (frac, r2) :=
        match r with
        | 46 :: rf =>
          let ds := rf.takeWhile isDigitCp
          if ds = [] then ([], r) else (ds.map (· - 48), rf.dropWhile isDigitCp)
        | _ => ([], r)
      let (ex, r3) := parseExp r2
      .ok (.num neg (digitsToNat ip) frac ex, r3)
    else .error "Expecting value"
  | [] => .error "Expecting value"
where
  parseExp (r : List Nat) : Option Int × List Nat :=
    match r with
    | e :: r2 =>
      if e = 101 ∨ e = 69 then
        let (esgn, r3) := match r2 with
          | 43 :: t => ((1 : Int), t)
          | 45 :: t => ((-1 : Int), t)
          | _ => ((1 : Int), r2)
        let ds := r3.takeWhile isDigitCp
        if ds = [] then (none, r)
        else (some (esgn * (digitsToNat ds : Int)), r3.dropWhile isDigitCp)
      else (none, r)
    | [] => (none, r)

/-- Insert a key/value pair into an association list, replacing in place on a
duplicate key (Python `dict` insertion semantics). -/
def upsert : List (List Nat × Json) → List Nat × Json → List (List Nat × Json)
  | [], kv => [kv]
  | (k', v') :: t, kv =>
    if k' = kv.1 then (k', kv.2) :: t else (k', v') :: upsert t kv

/-- `dict(pairs)`: last value wins, first-insertion order. -/
def dedupPairs (ps : List (List Nat × Json)) : List (List Nat × Json) :=
  ps.foldl upsert []

mutual

/-- `scan_once` of the json scanner: parse one JSON value at the head of the
input (no leading whitespace). -/
def parseVal : Nat → List Nat → Except String (Json × List Nat)
  | 0, _ => .error "depth"
  | f + 1, s =>
    match s with
    | [] => .error "Expecting value"
    | c :: rest =>
      if c = 34 then
        match parseStrAux (rest.length + 1) rest [] with
        | .error e => .error e
        | .ok (cps, r) => .ok (.str cps, r)
      else if c = 123 then
        match skipWs rest with
        | 125 :: r => .ok (.obj [], r)
        | s' => parseObjRest f s' []
      else if c = 91 then
        match skipWs rest with
        | 93 :: r => .ok (.arr [], r)
        | s' => parseArrRest f s' []
      else if litPre "null" s then .ok (.null, s.drop 4)
      else if litPre "true" s then .ok (.bool true, s.drop 4)
      else if litPre "false" s then .ok (.bool false, s.drop 5)
      else if litPre "NaN" s then .ok (.nan, s.drop 3)
      else if litPre "Infinity" s then .ok (.inf false, s.drop 8)
      else if litPre "-Infinity" s then .ok (.inf true, s.drop 9)
      else parseNumber s

/-- JSONArray element loop: value, then `]` or `,` (whitespace allowed). -/
def parseArrRest : Nat → List Nat → List Json → Except String (Json × List Nat)
  | 0, _, _ => .error "depth"
  | f + 1, s, acc =>
    match parseVal f s with
    | .error e => .error e
    | .ok (v, r) =>
      match skipWs r with
      | 93 :: r2 => .ok (.arr (acc.reverse ++ [v]), r2)
      | 44 :: r2 => parseArrRest f (skipWs r2) (v :: acc)
      | _ => .error "Expecting delimiter"

/-- JSONObject member loop: "key" : value, then `}` or `,`. -/
def parseObjRest : Nat → List Nat → List (List Nat × Json) → Except String (Json × List Nat)
  | 0, _, _ => .error "depth"
  | f + 1, s, acc =>
    match s with
    | 34 :: r =>
      match parseStrAux (r.length + 1) r [] with
      | .error e => .error e
      | .ok (key, r1) =>
        match skipWs r1 with
        | 58 :: r3 =>
          match parseVal f (skipWs r3) with
          | .error e => .error e
          | .ok (v, r4) =>
            match skipWs r4 with
            | 125 :: r6 => .ok (.obj (dedupPairs ((acc.reverse ++ [(key, v)]))), r6)
            | 44 :: r6 => parseObjRest f (skipWs r6) ((key, v) :: acc)
            | _ => .error "Expecting delimiter"
        | _ => .error "Expecting colon"
    | _ => .error "Expecting property name"

end

/-- `json.loads` on text given as unicode code points. -/
def jsonParse (cps : List Nat) : Except String Json :=
  match parseVal (2 * cps.length + 8) (skipWs cps) with
  | .error e => .error e
  | .ok (v, rest) => if skipWs rest = [] then .ok v else .error "Extra data"

/-- `json.loads` on a bytes object: encoding detection, decode with
`surrogatepass`, then parse. -/
def jsonParseBytes (bs : List Nat) : Except String Json :=
  match jsonBytesToText bs with
  | none => .error "UnicodeDecodeError"
  | some cps => jsonParse cps

/-! ## decoders.py -/

/-- A decoder call as seen by its caller: `decodeError` is a raised
`ZeppDecodeError`; `uncaught` is an exception the decoder's except clause
does not catch (the plain `ValueError` from base64's str→ASCII step), which
escapes to the decoder's caller. -/
inductive DecErr where
  | decodeError (msg : String)
  | uncaught (msg : String)
  deriving DecidableEq, Repr

/-- Does a decoder result carry an exception that a caller's
`except ZeppDecodeError` clause would not catch? -/
def isUncaught {α : Type} : Except DecErr α → Bool
  | .error (.uncaught _) => true
  | _ => false

/-- `decode_summary` (decoders.py lines 17-37): base64-decode, then parse the
bytes as JSON; `binascii.Error`, `JSONDecodeError` and `UnicodeDecodeError`
become `ZeppDecodeError`, while the plain `ValueError` raised by
`b64decode` on non-ASCII input is not in the except tuple and escapes. -/
def decodeSummary (raw_b64 : String) : Except DecErr Json :=
  match b64decode raw_b64 with
  | .error (.binascii m) => .error (.decodeError ("Failed to decode summary: " ++ m))
  | .error (.valueError m) => .error (.uncaught m)
  | .ok bs =>
    match jsonParseBytes bs with
    | .error e => .error (.decodeError ("Failed to decode summary: " ++ e))
    | .ok v => .ok v

structure HRSample where
  minute : Nat
  time : String
  bpm : Nat
  deriving DecidableEq, Repr

/-- The f-string `f"{minute // 60:02d}:{minute % 60:02d}"`. -/
def timeStr (minute : Nat) : String :=
  pad2 (minute / 60) ++ ":" ++ pad2 (minute % 60)

/-- The reading-collection loop of `decode_heart_rate` (decoders.py lines
66-74), on the decoded byte sequence. -/
def hrFromBytes (bs : List Nat) : List HRSample :=
  bs.enum.foldl
    (fun acc p =>
      if 0 < p.2 ∧ p.2 < 254 then acc ++ [⟨p.1, timeStr p.1, p.2⟩] else acc)
    []

/-- `decode_heart_rate` (decoders.py lines 40-74): only `binascii.Error` is
caught and re-raised as `ZeppDecodeError`; the str→ASCII `ValueError`
escapes. -/
def decodeHeartRate (raw_b64 : String) : Except DecErr (List HRSample) :=
  match b64decode raw_b64 with
  | .error (.binascii m) => .error (.decodeError ("Failed to decode heart rate data: " ++ m))
  | .error (.valueError m) => .error (.uncaught m)
  | .ok bs => .ok (hrFromBytes bs)

/-- `decode_heart_rate_raw` (decoders.py lines 77-96): every byte value,
unfiltered; the same error behavior as `decode_heart_rate`. -/
def decodeHeartRateRaw (raw_b64 : String) : Except DecErr (List Nat) :=
  match b64decode raw_b64 with
  | .error (.binascii m) => .error (.decodeError ("Failed to decode heart rate data: " ++ m))
  | .error (.valueError m) => .error (.uncaught m)
  | .ok bs => .ok bs

/-- `decode_stress_data` (decoders.py lines 99-122): `json.loads` on the
input; `JSONDecodeError` and `TypeError` become `ZeppDecodeError`.  The input
`none` stands for Python `None` (or any non-text value), on which
`json.loads` raises `TypeError`. -/
def decodeStressData (data_string : Option String) : Except String Json :=
  match data_string with
  | none => .error "Failed to decode stress data: TypeError"
  | some s =>
    match jsonParse (strCps s) with
    | .error e => .error ("Failed to decode stress data: " ++ e)
    | .ok v => .ok v

/-! ## client.py: stage tables -/

/-- `SLEEP_STAGES` (client.py line 23). -/
def SLEEP_STAGES : List (Nat × String) :=
  [(4, "light"), (5, "deep"), (7, "awake"), (8, "rem")]

/-- `ACTIVITY_MODES` (client.py line 24). -/
def ACTIVITY_MODES : List (Nat × String) :=
  [(1, "slow_walking"), (3, "fast_walking"), (7, "running"), (76, "light_activity")]

/-- The lookup `SLEEP_STAGES.get(mode, f"unknown_{mode}")` (client.py 265). -/
def stageName (mode : Nat) : String :=
  (SLEEP_STAGES.lookup mode).getD ("unknown_" ++ toString mode)

/-- The lookup `ACTIVITY_MODES.get(mode, f"unknown_{mode}")` (client.py 319). -/
def activityName (mode : Nat) : String :=
  (ACTIVITY_MODES.lookup mode).getD ("unknown_" ++ toString mode)

/-! ## client.py: `_fetch_band_data` per-day decoding (lines 143-170)

A fetched day is a JSON object whose `summary`, `data_hr` and `data` fields
are processed only when present and of type `str` (the `isinstance` checks);
`none` below covers both an absent key and a non-str value. -/

structure RawDay where
  date_time : Option String
  summary : Option String
  data_hr : Option String
  data : Option String

/-- The per-day result dict built by `_fetch_band_data`: `none` means the key
is absent from the dict; `summary = some none` means the key holds Python
`None` (decode failure downgraded). -/
structure FetchedDay where
  date : Option String
  summary : Option (Option Json)
  heart_rate : Option (List HRSample)
  heart_rate_raw : Option (List Nat)
  activity_bytes_length : Option Nat

/-- The summary field of the result dict (client.py 147-151): the decoded
value, or `None` on a caught `ZeppDecodeError`; an uncaught exception
propagates out of the loop. -/
def fetchSummaryField (o : Option String) : Except DecErr (Option (Option Json)) :=
  match o with
  | none => .ok none
  | some s =>
    match decodeSummary s with
    | .ok v => .ok (some (some v))
    | .error (.decodeError _) => .ok (some none)
    | .error (.uncaught m) => .error (.uncaught m)

/-- The heart-rate fields of the result dict (client.py 153-159): the two
decoders run in one try block; a `ZeppDecodeError` from either sets both
fields to empty lists, an uncaught exception propagates. -/
def fetchHrFields (o : Option String) :
    Except DecErr (Option (List HRSample) × Option (List Nat)) :=
  match o with
  | none => .ok (none, none)
  | some s =>
    match decodeHeartRate s with
    | .error (.uncaught m) => .error (.uncaught m)
    | .error (.decodeError _) => .ok (some [], some [])
    | .ok v =>
      match decodeHeartRateRaw s with
      | .ok vr => .ok (some v, some vr)
      | .error (.decodeError _) => .ok (some [], some [])
      | .error (.uncaught m) => .error (.uncaught m)

/-- The per-day body of `_fetch_band_data`'s loop; an `.error` is an
exception escaping the loop (only the plain `ValueError` can, since the
`data` field's try block catches `Exception`). -/
def fetchDay (day : RawDay) : Except DecErr FetchedDay :=
  match fetchSummaryField day.summary with
  | .error e => .error e
  | .ok summaryField =>
    match fetchHrFields day.data_hr with
    | .error e => .error e
    | .ok hrFields =>
      .ok { date := day.date_time
            summary := summaryField
            heart_rate := hrFields.1
            heart_rate_raw := hrFields.2
            activity_bytes_length := day.data.bind fun s =>
              match b64decode s with
              | .ok bs => some bs.length
              | .error _ => none }

/-- `_fetch_band_data`'s day loop (the HTTP envelope is outside the model);
an uncaught exception from any day aborts the whole call. -/
def fetchBandData (days : List RawDay) : Except DecErr (List FetchedDay) :=
  days.mapM fetchDay

/-! ## client.py: `get_sleep` (lines 209-295)

`get_sleep` reads typed fields out of the decoded summary dicts; the model
takes the days with those fields already extracted.  Epoch fields (`st`,
`ed`) are nonnegative integers; `none` is an absent key, and the code's
truthiness test also skips a present `0`. -/

structure RawStage where
  start : Nat
  stop : Nat
  mode : Nat
  deriving DecidableEq, Repr

structure Slp where
  st : Option Nat
  ed : Option Nat
  rhr : Option Int
  ss : Option Int
  dp : Option Int
  lt : Option Int
  stage : List RawStage
  odd_stage : List RawStage
  deriving DecidableEq, Repr

/-- A decoded day summary as read by `get_sleep`; only `slp` matters here. -/
structure DaySummary where
  slp : Option Slp
  deriving DecidableEq, Repr

/-- One element of the list `_fetch_band_data` returns, as read by
`get_sleep`: `summary = none` covers a missing, `None` (decode-failed) or
falsy summary. -/
structure SleepDay where
  date : Option String
  summary : Option DaySummary
  deriving DecidableEq, Repr

/-- Python truthiness of `slp.get(key)` for an epoch field. -/
def falsyNat (o : Option Nat) : Bool := o.getD 0 == 0

structure StageSeg where
  start_minute : Nat
  end_minute : Nat
  duration_minutes : Int
  stage : String
  deriving DecidableEq, Repr

/-- One entry of the `stages` list (client.py lines 260-266). -/
def mkStageSeg (s : RawStage) : StageSeg :=
  ⟨s.start, s.stop, (s.stop : Int) - (s.start : Int), stageName s.mode⟩

/-- The dict `get_sleep` returns (client.py lines 277-295).  The `start` and
`end` isoformat strings are modelled by the epochs they are derived from
(`datetime.fromtimestamp(st).isoformat()` is injective in `st`). -/
structure SleepRes where
  date : String
  fetched_from : Option String
  resting_hr : Option Int
  sleep_score : Option Int
  deep_minutes : Option Int
  light_minutes : Option Int
  stages : List StageSeg
  nap_stages : List StageSeg
  startEpoch : Option Nat
  endEpoch : Option Nat
  duration_minutes : Option Int
  deriving DecidableEq, Repr

def buildSleep (D : String) (src : Option String) (slp : Slp) : SleepRes :=
  { date := D
    fetched_from := src
    resting_hr := slp.rhr
    sleep_score := slp.ss
    deep_minutes := slp.dp
    light_minutes := slp.lt
    stages := slp.stage.map mkStageSeg
    nap_stages := slp.odd_stage.map mkStageSeg
    startEpoch := if !falsyNat slp.st && !falsyNat slp.ed then slp.st else none
    endEpoch := if !falsyNat slp.st && !falsyNat slp.ed then slp.ed else none
    duration_minutes :=
      if !falsyNat slp.st && !falsyNat slp.ed then
        some (truncDiv60 ((slp.ed.getD 0 : Int) - (slp.st.getD 0 : Int)))
      else none }

/-- The scan loop of `get_sleep` (client.py lines 235-254): first day whose
session end-date equals the wake date wins immediately (`break`); otherwise a
day whose own date equals the wake date is held while `best_sleep is None`. -/
def sleepScan (D : String) : List SleepDay → Option (Slp × Option String) → Option (Slp × Option String)
  | [], best => best
  | d :: rest, best =>
    match d.summary with
    | none => sleepScan D rest best
    | some summ =>
      match summ.slp with
      | none => sleepScan D rest best
      | some slp =>
        if falsyNat slp.ed || falsyNat slp.st then sleepScan D rest best
        else if epochToDateStr (slp.ed.getD 0) = D then some (slp, d.date)
        else if d.date = some D ∧ best.isNone then sleepScan D rest (some (slp, d.date))
        else sleepScan D rest best

/-- `get_sleep`, given the fetched two-day window (in fetch order D−1, D).
`none` is the empty dict `{}` (no sleep data found). -/
def getSleep (days : List SleepDay) (D : String) : Option SleepRes :=
  (sleepScan D days none).map fun p => buildSleep D p.2 p.1

/-! Claim-side reformulation of the reconciliation (spec section 4.2), used to
state C1: a find-first over the scanned days. -/

/-- The session of a day that survives both skip tests of the scan loop. -/
def usableSlp (d : SleepDay) : Option Slp :=
  match d.summary with
  | some summ =>
    match summ.slp with
    | some slp => if falsyNat slp.ed || falsyNat slp.st then none else some slp
    | none => none
  | none => none

/-- A scanned day whose session end-epoch converts to calendar date `D`. -/
def endsOnDate (D : String) (d : SleepDay) : Bool :=
  match usableSlp d with
  | some slp => epochToDateStr (slp.ed.getD 0) == D
  | none => false

/-- A usable day whose own date equals `D` (the fallback condition). -/
def sameDate (D : String) (d : SleepDay) : Bool :=
  (usableSlp d).isSome && d.date == some D

/-- The day the spec says wins: first end-date match, else first same-date
fallback. -/
def chooseDay (D : String) (days : List SleepDay) : Option SleepDay :=
  match days.find? (endsOnDate D) with
  | some d => some d
  | none => days.find? (sameDate D)

/-! ## client.py: `get_stress` (lines 377-425) -/

/-- One item of the stress events response, with the fields `get_stress`
reads.  `data = none` covers an absent `data` key (the `.get` default `""`)
and a non-str value, both of which fail the `isinstance`/`startswith` test. -/
structure StressItem where
  timestamp : Option Int
  avgStress : Option Int
  maxStress : Option Int
  minStress : Option Int
  relaxProportion : Option Int
  normalProportion : Option Int
  mediumProportion : Option Int
  highProportion : Option Int
  data : Option String

structure ZonePercentages where
  relaxed : Int
  normal : Int
  medium : Int
  high : Int
  deriving DecidableEq, Repr

structure StressRecord where
  timestamp : Option Int
  avg_stress : Option Int
  max_stress : Option Int
  min_stress : Option Int
  zone_percentages : ZonePercentages
  readings : Json

/-- `data_str.startswith("[")`: for a one-character prefix this is exactly a
first-character test. -/
def startsWithBracket (s : String) : Bool :=
  match s.toList with
  | c :: _ => c = '['
  | [] => false

/-- The per-item record construction of `get_stress` (client.py 401-423). -/
def mkStressRecord (item : StressItem) : StressRecord :=
  { timestamp := item.timestamp
    avg_stress := item.avgStress
    max_stress := item.maxStress
    min_stress := item.minStress
    zone_percentages :=
      ⟨item.relaxProportion.getD 0, item.normalProportion.getD 0,
       item.mediumProportion.getD 0, item.highProportion.getD 0⟩
    readings :=
      match item.data with
      | some s =>
        if startsWithBracket s then
          match decodeStressData (some s) with
          | .ok v => v
          | .error _ => Json.arr []
        else Json.arr []
      | none => Json.arr [] }

/-- `get_stress`'s result list (the HTTP fetch is outside the model). -/
def getStress (items : List StressItem) : List StressRecord :=
  items.map mkStressRecord

/-! ## export.py: `export_apple_health` (lines 64-186) -/

/-- `ZEPP_TO_APPLE_SLEEP` (export.py lines 15-20). -/
def zeppToApple : List (String × String) :=
  [("light", "HKCategoryValueSleepAnalysisAsleepCore"),
   ("deep", "HKCategoryValueSleepAnalysisAsleepDeep"),
   ("rem", "HKCategoryValueSleepAnalysisAsleepREM"),
   ("awake", "HKCategoryValueSleepAnalysisAwake")]

/-- One `<Record>` element; the `startDate`/`endDate` attribute strings are
`appleDate startDT off` / `appleDate endDT off`. -/
structure XRecord where
  rtype : String
  unit : Option String
  value : String
  startDT : DateTime
  endDT : DateTime
  deriving DecidableEq, Repr

def listFlatMap (f : α → List β) (l : List α) : List β := (l.map f).flatten

/-- Stable insertion into a key-sorted list (equal keys keep arrival order). -/
def insertSorted (p : String × α) : List (String × α) → List (String × α)
  | [] => [p]
  | q :: t => if p.1 < q.1 then p :: q :: t else q :: insertSorted p t

/-- `sorted(d.items())`: iterate dict entries in ascending key order. -/
def sortByKey (l : List (String × α)) : List (String × α) :=
  l.foldl (fun acc p => insertSorted p acc) []

/-- Heart-rate records (export.py lines 107-118). -/
def hrRecords (data : List (String × List HRSample)) : List XRecord :=
  listFlatMap
    (fun p => p.2.map fun r =>
      { rtype := "HKQuantityTypeIdentifierHeartRate"
        unit := some "count/min"
        value := toString r.bpm
        startDT := minuteToDT p.1 r.minute
        endDT := minuteToDT p.1 r.minute })
    (sortByKey data)

/-- The fields of a `get_steps` result that the exporter reads. -/
structure StepsRes where
  total_steps : Option Int
  deriving DecidableEq, Repr

/-- Step-count records, one per day with truthy `total_steps` (export.py
lines 121-134). -/
def stepsRecords (data : List (String × Option StepsRes)) : List XRecord :=
  listFlatMap
    (fun p =>
      match p.2 with
      | none => []
      | some st =>
        if st.total_steps.getD 0 == 0 then []
        else
          [{ rtype := "HKQuantityTypeIdentifierStepCount"
             unit := some "count"
             value := toString (st.total_steps.getD 0)
             startDT := minuteToDT p.1 0
             endDT := minuteToDT p.1 1439 }])
    (sortByKey data)

/-- Sleep records for one wake-date entry (export.py lines 138-175): skipped
entirely when the dict is falsy or its `stages` list is empty; one record per
stage with a `ZEPP_TO_APPLE_SLEEP` translation, placed on the fetched-from
date (falling back to the wake date); plus one InBed record from the
session's `start`/`end` datetimes when both are present. -/
def sleepRecordsFor (wake : String) (entry : Option SleepRes) : List XRecord :=
  match entry with
  | none => []
  | some sl =>
    if sl.stages = [] then []
    else
      let src := sl.fetched_from.getD wake
      let stageRecs := sl.stages.filterMap fun st =>
        (zeppToApple.lookup st.stage).map fun v =>
          { rtype := "HKCategoryTypeIdentifierSleepAnalysis"
            unit := none
            value := v
            startDT := minuteToDT src st.start_minute
            endDT := minuteToDT src st.end_minute }
      let inBed : List XRecord :=
        match sl.startEpoch, sl.endEpoch with
        | some st, some ed =>
          [{ rtype := "HKCategoryTypeIdentifierSleepAnalysis"
             unit := none
             value := "HKCategoryValueSleepAnalysisInBed"
             startDT := epochToDT st
             endDT := epochToDT ed }]
        | _, _ => []
      stageRecs ++ inBed

/-- Sleep records of the whole export (export.py lines 137-175). -/
def sleepRecords (data : List (String × Option SleepRes)) : List XRecord :=
  listFlatMap (fun p => sleepRecordsFor p.1 p.2) (sortByKey data)

/-- All `<Record>` elements of `export_apple_health`, in document order. -/
def exportRecords (hr : List (String × List HRSample))
    (steps : List (String × Option StepsRes))
    (sleep : List (String × Option SleepRes)) : List XRecord :=
  hrRecords hr ++ stepsRecords steps ++ sleepRecords sleep

/-! ## Concrete inputs used by the counterexamples and witnesses below -/

/-- A session of 100 elapsed seconds ending 1970-01-02 01:01:40 local. -/
def c2slp : Slp :=
  { st := some 90000, ed := some 90100, rhr := some 55, ss := some 80,
    dp := some 30, lt := some 200, stage := [], odd_stage := [] }

def c2days : List SleepDay :=
  [{ date := some "1970-01-02", summary := some { slp := some c2slp } }]

/-- The spec's four-stage example session, with a valid start and end. -/
def c3full : SleepRes :=
  { date := "1970-01-02", fetched_from := some "1970-01-02",
    resting_hr := none, sleep_score := none, deep_minutes := none,
    light_minutes := none,
    stages := [⟨1410, 1440, 30, "light"⟩, ⟨1440, 1470, 30, "deep"⟩,
               ⟨1470, 1490, 20, "rem"⟩, ⟨1490, 1500, 10, "awake"⟩],
    nap_stages := [],
    startEpoch := some 82800, endEpoch := some 111600,
    duration_minutes := some 480 }

/-- The same session with an empty stage list. -/
def c3empty : SleepRes :=
  { date := "1970-01-02", fetched_from := some "1970-01-02",
    resting_hr := none, sleep_score := none, deep_minutes := none,
    light_minutes := none,
    stages := [], nap_stages := [],
    startEpoch := some 82800, endEpoch := some 111600,
    duration_minutes := some 480 }

/-- A fetched day whose summary blob is undecodable ("a" has an invalid
base64 quad) while its heart-rate blob "SA==" decodes to the single byte
72. -/
def c4day : RawDay :=
  { date_time := some "1970-01-02", summary := some "a",
    data_hr := some "SA==", data := none }

/-- A stress item with aggregates and a decodable bracketed data string. -/
def c10item : StressItem :=
  { timestamp := some 0, avgStress := some 40, maxStress := some 80,
    minStress := some 10, relaxProportion := some 25,
    normalProportion := some 40, mediumProportion := some 20,
    highProportion := some 15, data := some "[1]" }

/-- A session fetched from the wake date 1970-01-02 whose start datetime
(epoch 82800 = 1970-01-01 23:00) lies before that date's midnight. -/
def c9sleep : SleepRes :=
  { date := "1970-01-02", fetched_from := some "1970-01-02",
    resting_hr := none, sleep_score := none, deep_minutes := none,
    light_minutes := none,
    stages := [⟨1410, 1440, 30, "light"⟩], nap_stages := [],
    startEpoch := some 82800, endEpoch := some 111600,
    duration_minutes := some 480 }

/-! # Theorems -/

/-! ## Heart-rate decoding (claim C5) -/

theorem hr_foldl_char (l : List (Nat × Nat)) (acc : List HRSample) :
    l.foldl
      (fun acc p =>
        if 0 < p.2 ∧ p.2 < 254 then acc ++ [⟨p.1, timeStr p.1, p.2⟩] else acc)
      acc
      = acc ++ (l.filter fun p => decide (0 < p.2 ∧ p.2 < 254)).map
          (fun p => ⟨p.1, timeStr p.1, p.2⟩) := by
  induction l generalizing acc with
  | nil => simp
  | cons h t ih =>
    by_cases hp : 0 < h.2 ∧ h.2 < 254
    · simp [List.filter_cons, hp, ih]
    · simp [List.filter_cons, hp, ih]

theorem hrFromBytes_eq (bs : List Nat) :
    hrFromBytes bs
      = (bs.enum.filter fun p => decide (0 < p.2 ∧ p.2 < 254)).map
          (fun p => ⟨p.1, timeStr p.1, p.2⟩) := by
  simpa [hrFromBytes] using hr_foldl_char bs.enum []

/-- C5: for every byte sequence, `decode_heart_rate` emits one sample per
index whose byte value v has 0 < v < 254, as a subsequence of the indexed
input in ascending minute order, with minute = index and time the
zero-padded HH:MM of (i / 60, i % 60); the concrete byte list
[0,0,0,72,75,0,0,80,0,65] yields exactly the four samples
(3,72), (4,75), (7,80), (9,65). -/
theorem heart_rate_decode_spec :
    (∀ bs : List Nat,
      hrFromBytes bs
        = (bs.enum.filter fun p => decide (0 < p.2 ∧ p.2 < 254)).map
            (fun p => ⟨p.1, timeStr p.1, p.2⟩))
    ∧ (∀ bs : List Nat,
        List.Sublist ((hrFromBytes bs).map fun s => (s.minute, s.bpm)) bs.enum)
    ∧ (∀ bs : List Nat, ((hrFromBytes bs).map HRSample.minute).Pairwise (· < ·))
    ∧ (∀ bs : List Nat, ∀ s ∈ hrFromBytes bs,
        s.time = pad2 (s.minute / 60) ++ ":" ++ pad2 (s.minute % 60)
          ∧ 0 < s.bpm ∧ s.bpm < 254)
    ∧ (∀ raw bs, b64decode raw = .ok bs → decodeHeartRate raw = .ok (hrFromBytes bs))
    ∧ hrFromBytes [0, 0, 0, 72, 75, 0, 0, 80, 0, 65]
        = [⟨3, "00:03", 72⟩, ⟨4, "00:04", 75⟩, ⟨7, "00:07", 80⟩, ⟨9, "00:09", 65⟩] := by
  refine ⟨hrFromBytes_eq, ?_, ?_, ?_, ?_, by decide⟩
  · intro bs
    rw [hrFromBytes_eq]
    have : ((bs.enum.filter fun p => decide (0 < p.2 ∧ p.2 < 254)).map
        (fun p => (⟨p.1, timeStr p.1, p.2⟩ : HRSample))).map (fun s => (s.minute, s.bpm))
        = bs.enum.filter fun p => decide (0 < p.2 ∧ p.2 < 254) := by
      rw [List.map_map]
      have hfun : ((fun s : HRSample => (s.minute, s.bpm)) ∘
          fun p : Nat × Nat => (⟨p.1, timeStr p.1, p.2⟩ : HRSample)) = id := rfl
      rw [hfun, List.map_id]
    rw [this]
    exact List.filter_sublist _
  · intro bs
    rw [hrFromBytes_eq]
    have hpair : bs.enum.Pairwise (fun a b : Nat × Nat => a.1 < b.1) := by
      have := List.pairwise_lt_range bs.length
      have h2 : (bs.enum.map Prod.fst).Pairwise (· < ·) := by
        rw [List.enum_map_fst]; exact this
      exact (List.pairwise_map.mp h2)
    have hsub : (bs.enum.filter fun p => decide (0 < p.2 ∧ p.2 < 254)).Pairwise
        (fun a b : Nat × Nat => a.1 < b.1) :=
      hpair.sublist (List.filter_sublist _) |>.imp id
    rw [List.map_map, List.pairwise_map]
    simpa using hsub
  · intro bs s hs
    rw [hrFromBytes_eq] at hs
    rcases List.mem_map.mp hs with ⟨p, hp, rfl⟩
    have := List.of_mem_filter hp
    simp only [decide_eq_true_eq] at this
    exact ⟨rfl, this.1, this.2⟩
  · intro raw bs h
    simp [decodeHeartRate, h]

/-- Witness for C5 at the concrete byte list from the spec. -/
theorem heart_rate_decode_spec_witness :
    (⟨3, "00:03", 72⟩ : HRSample) ∈ hrFromBytes [0, 0, 0, 72, 75, 0, 0, 80, 0, 65]
      ∧ ((⟨3, "00:03", 72⟩ : HRSample).time = pad2 (3 / 60) ++ ":" ++ pad2 (3 % 60)
          ∧ 0 < (⟨3, "00:03", 72⟩ : HRSample).bpm ∧ (⟨3, "00:03", 72⟩ : HRSample).bpm < 254)
      ∧ decodeHeartRate "SA==" = .ok (hrFromBytes [72]) :=
  ⟨by decide,
   heart_rate_decode_spec.2.2.2.1 [0, 0, 0, 72, 75, 0, 0, 80, 0, 65]
     ⟨3, "00:03", 72⟩ (by decide),
   heart_rate_decode_spec.2.2.2.2.1 "SA==" [72] rfl⟩

/-! ## Stage-code lookup tables (claim C6) -/

/-- C6: sleep stage mode codes map through 4→light, 5→deep, 7→awake, 8→rem,
every other code to "unknown_<code>"; activity mode codes map through
1→slow_walking, 3→fast_walking, 7→running, 76→light_activity, every other
code to "unknown_<code>"; the sleep-stage lookup is the one applied to every
raw stage in `get_sleep`. -/
theorem stage_mode_lookup :
    stageName 4 = "light" ∧ stageName 5 = "deep" ∧ stageName 7 = "awake"
    ∧ stageName 8 = "rem"
    ∧ (∀ c : Nat, c ≠ 4 → c ≠ 5 → c ≠ 7 → c ≠ 8 →
        stageName c = "unknown_" ++ toString c)
    ∧ activityName 1 = "slow_walking" ∧ activityName 3 = "fast_walking"
    ∧ activityName 7 = "running" ∧ activityName 76 = "light_activity"
    ∧ (∀ c : Nat, c ≠ 1 → c ≠ 3 → c ≠ 7 → c ≠ 76 →
        activityName c = "unknown_" ++ toString c)
    ∧ (∀ s : RawStage, (mkStageSeg s).stage = stageName s.mode) := by
  refine ⟨rfl, rfl, rfl, rfl, ?_, rfl, rfl, rfl, rfl, ?_, fun s => rfl⟩
  · intro c h4 h5 h7 h8
    have e4 : (c == 4) = false := beq_eq_false_iff_ne.mpr h4
    have e5 : (c == 5) = false := beq_eq_false_iff_ne.mpr h5
    have e7 : (c == 7) = false := beq_eq_false_iff_ne.mpr h7
    have e8 : (c == 8) = false := beq_eq_false_iff_ne.mpr h8
    simp [stageName, SLEEP_STAGES, List.lookup, e4, e5, e7, e8]
  · intro c h1 h3 h7 h76
    have e1 : (c == 1) = false := beq_eq_false_iff_ne.mpr h1
    have e3 : (c == 3) = false := beq_eq_false_iff_ne.mpr h3
    have e7 : (c == 7) = false := beq_eq_false_iff_ne.mpr h7
    have e76 : (c == 76) = false := beq_eq_false_iff_ne.mpr h76
    simp [activityName, ACTIVITY_MODES, List.lookup, e1, e3, e7, e76]

/-- Witness for C6 at the unmapped codes 9 (sleep) and 2 (activity). -/
theorem stage_mode_lookup_witness :
    stageName 9 = "unknown_" ++ toString 9
      ∧ activityName 2 = "unknown_" ++ toString 2 :=
  ⟨stage_mode_lookup.2.2.2.2.1 9 (by decide) (by decide) (by decide) (by decide),
   stage_mode_lookup.2.2.2.2.2.2.2.2.2.1 2 (by decide) (by decide) (by decide) (by decide)⟩

/-! ## Sleep reconciliation (claims C1, C2) -/

theorem sleepScan_some (D : String) (days : List SleepDay) (b : Slp × Option String) :
    sleepScan D days (some b)
      = match days.find? (endsOnDate D) with
        | some d => (usableSlp d).map fun slp => (slp, d.date)
        | none => some b := by
  induction days with
  | nil => simp [sleepScan]
  | cons d rest ih =>
    cases hsum : d.summary with
    | none =>
      have he : endsOnDate D d = false := by simp [endsOnDate, usableSlp, hsum]
      simp [sleepScan, hsum, List.find?_cons, he, ih]
    | some summ =>
      cases hslp : summ.slp with
      | none =>
        have he : endsOnDate D d = false := by simp [endsOnDate, usableSlp, hsum, hslp]
        simp [sleepScan, hsum, hslp, List.find?_cons, he, ih]
      | some slp =>
        cases hf : (falsyNat slp.ed || falsyNat slp.st) with
        | true =>
          have he : endsOnDate D d = false := by
            simp [endsOnDate, usableSlp, hsum, hslp, hf]
          simp [sleepScan, hsum, hslp, hf, List.find?_cons, he, ih]
        | false =>
          by_cases hend : epochToDateStr (slp.ed.getD 0) = D
          · have he : endsOnDate D d = true := by
              simp [endsOnDate, usableSlp, hsum, hslp, hf, hend]
            simp [sleepScan, hsum, hslp, hf, hend, List.find?_cons, he,
                  usableSlp]
          · have he : endsOnDate D d = false := by
              simp [endsOnDate, usableSlp, hsum, hslp, hf, hend]
            simp [sleepScan, hsum, hslp, hf, hend, List.find?_cons, he, ih]

theorem sleepScan_none (D : String) (days : List SleepDay) :
    sleepScan D days none
      = match days.find? (endsOnDate D) with
        | some d => (usableSlp d).map fun slp => (slp, d.date)
        | none =>
          match days.find? (sameDate D) with
          | some d => (usableSlp d).map fun slp => (slp, d.date)
          | none => none := by
  induction days with
  | nil => simp [sleepScan]
  | cons d rest ih =>
    cases hsum : d.summary with
    | none =>
      have he : endsOnDate D d = false := by simp [endsOnDate, usableSlp, hsum]
      have hsd : sameDate D d = false := by simp [sameDate, usableSlp, hsum]
      simp [sleepScan, hsum, List.find?_cons, he, hsd, ih]
    | some summ =>
      cases hslp : summ.slp with
      | none =>
        have he : endsOnDate D d = false := by simp [endsOnDate, usableSlp, hsum, hslp]
        have hsd : sameDate D d = false := by simp [sameDate, usableSlp, hsum, hslp]
        simp [sleepScan, hsum, hslp, List.find?_cons, he, hsd, ih]
      | some slp =>
        cases hf : (falsyNat slp.ed || falsyNat slp.st) with
        | true =>
          have he : endsOnDate D d = false := by
            simp [endsOnDate, usableSlp, hsum, hslp, hf]
          have hsd : sameDate D d = false := by
            simp [sameDate, usableSlp, hsum, hslp, hf]
          simp [sleepScan, hsum, hslp, hf, List.find?_cons, he, hsd, ih]
        | false =>
          by_cases hend : epochToDateStr (slp.ed.getD 0) = D
          · have he : endsOnDate D d = true := by
              simp [endsOnDate, usableSlp, hsum, hslp, hf, hend]
            simp [sleepScan, hsum, hslp, hf, hend, List.find?_cons, he,
                  usableSlp]
          · have he : endsOnDate D d = false := by
              simp [endsOnDate, usableSlp, hsum, hslp, hf, hend]
            by_cases hdd : d.date = some D
            · have hsd : sameDate D d = true := by
                simp [sameDate, usableSlp, hsum, hslp, hf, hdd]
              have hstep : sleepScan D (d :: rest) none
                  = sleepScan D rest (some (slp, d.date)) := by
                simp [sleepScan, hsum, hslp, hf, hend, hdd]
              rw [hstep, sleepScan_some]
              simp only [List.find?_cons, he, hsd]
              cases rest.find? (endsOnDate D) with
              | some d' => rfl
              | none => simp [usableSlp, hsum, hslp, hf]
            · have hsd : sameDate D d = false := by
                simp [sameDate, usableSlp, hsum, hslp, hf, hdd]
              simp [sleepScan, hsum, hslp, hf, hend, hdd, List.find?_cons, he, hsd, ih]

/-- C1: the scan of `get_sleep` over the fetched days (D−1 first, then D)
skips unusable days, accepts the first day whose session end-epoch converts
to the wake date D and stops, otherwise falls back to the first usable day
whose own date is D, and returns the empty record (`none`) when no usable
day exists. -/
theorem sleep_reconciliation_spec :
    ∀ (days : List SleepDay) (D : String),
      getSleep days D
        = (chooseDay D days).bind fun d =>
            (usableSlp d).map fun slp => buildSleep D d.date slp := by
  intro days D
  unfold getSleep chooseDay
  rw [sleepScan_none]
  cases h1 : days.find? (endsOnDate D) with
  | some d =>
    show Option.map (fun p => buildSleep D p.2 p.1)
          ((usableSlp d).map fun slp => (slp, d.date))
        = (usableSlp d).map fun slp => buildSleep D d.date slp
    cases usableSlp d <;> rfl
  | none =>
    cases h2 : days.find? (sameDate D) with
    | some d =>
      show Option.map (fun p => buildSleep D p.2 p.1)
            ((usableSlp d).map fun slp => (slp, d.date))
          = (usableSlp d).map fun slp => buildSleep D d.date slp
      cases usableSlp d <;> rfl
    | none => rfl

theorem sleepScan_nonfalsy (D : String) :
    ∀ (days : List SleepDay) (best : Option (Slp × Option String))
      (p : Slp × Option String),
      (∀ q, best = some q → falsyNat q.1.ed = false ∧ falsyNat q.1.st = false) →
      sleepScan D days best = some p →
      falsyNat p.1.ed = false ∧ falsyNat p.1.st = false := by
  intro days
  induction days with
  | nil =>
    intro best p hb hs
    exact hb p hs
  | cons d rest ih =>
    intro best p hb hs
    cases hsum : d.summary with
    | none =>
      simp only [sleepScan, hsum] at hs
      exact ih best p hb hs
    | some summ =>
      cases hslp : summ.slp with
      | none =>
        simp only [sleepScan, hsum, hslp] at hs
        exact ih best p hb hs
      | some slp =>
        simp only [sleepScan, hsum, hslp] at hs
        cases hf : (falsyNat slp.ed || falsyNat slp.st) with
        | true =>
          rw [if_pos hf] at hs
          exact ih best p hb hs
        | false =>
          rw [if_neg (by simp [hf])] at hs
          have hfe : falsyNat slp.ed = false ∧ falsyNat slp.st = false := by
            constructor <;> [exact (Bool.or_eq_false_iff.mp hf).1;
                            exact (Bool.or_eq_false_iff.mp hf).2]
          by_cases hend : epochToDateStr (slp.ed.getD 0) = D
          · rw [if_pos hend] at hs
            cases hs
            exact hfe
          · rw [if_neg hend] at hs
            by_cases hc : d.date = some D ∧ best.isNone
            · rw [if_pos hc] at hs
              refine ih _ p ?_ hs
              intro q hq
              cases hq
              exact hfe
            · rw [if_neg hc] at hs
              exact ih best p hb hs

/-- C2 (amended): for every accepted sleep session, `duration_minutes` is
the elapsed seconds divided by 60 truncated toward zero (floor division for
the nonnegative case), not rounded to the nearest minute. -/
theorem sleep_duration_trunc :
    ∀ (days : List SleepDay) (D : String) (r : SleepRes),
      getSleep days D = some r →
      ∃ s e : Nat, r.startEpoch = some s ∧ r.endEpoch = some e
        ∧ r.duration_minutes = some (truncDiv60 ((e : Int) - (s : Int)))
        ∧ (s ≤ e → truncDiv60 ((e : Int) - (s : Int)) = ((e - s) / 60 : Nat)) := by
  intro days D r hr
  unfold getSleep at hr
  cases hs : sleepScan D days none with
  | none =>
    rw [hs] at hr
    exact absurd hr (by simp)
  | some p =>
    rw [hs] at hr
    have hr' : buildSleep D p.2 p.1 = r := by simpa using hr
    clear hr
    obtain ⟨hed, hst⟩ := sleepScan_nonfalsy D days none p (by simp) hs
    obtain ⟨e, hee, hene⟩ : ∃ e, p.1.ed = some e ∧ e ≠ 0 := by
      cases hed' : p.1.ed with
      | none => rw [hed', falsyNat] at hed; simp at hed
      | some k =>
        refine ⟨k, rfl, ?_⟩
        rw [hed', falsyNat] at hed
        simpa using hed
    obtain ⟨s, hse, hsne⟩ : ∃ s, p.1.st = some s ∧ s ≠ 0 := by
      cases hst' : p.1.st with
      | none => rw [hst', falsyNat] at hst; simp at hst
      | some k =>
        refine ⟨k, rfl, ?_⟩
        rw [hst', falsyNat] at hst
        simpa using hst
    rw [hee] at hed
    rw [hse] at hst
    refine ⟨s, e, ?_, ?_, ?_, ?_⟩
    · rw [← hr']; simp [buildSleep, hed, hst, hse, hee]
    · rw [← hr']; simp [buildSleep, hed, hst, hse, hee]
    · rw [← hr']; simp [buildSleep, hed, hst, hse, hee]
    · intro hle
      rw [truncDiv60, if_pos (by omega)]
      congr 1
      omega

/-- Counterexample for C2 as stated: a session of 100 elapsed seconds gets
`duration_minutes` 1 from the code, while rounding 100/60 to the nearest
minute gives 2. -/
theorem sleep_duration_round_cex :
    (getSleep c2days "1970-01-02").bind SleepRes.duration_minutes = some 1
      ∧ roundDiv60 (90100 - 90000) = 2 ∧ (1 : Int) ≠ 2 := by
  refine ⟨by decide, by decide, by decide⟩

/-- Witness for C2 (amended) at the concrete accepted session of `c2days`. -/
theorem sleep_duration_trunc_witness :
    ∃ s e : Nat,
      (buildSleep "1970-01-02" (some "1970-01-02") c2slp).startEpoch = some s
      ∧ (buildSleep "1970-01-02" (some "1970-01-02") c2slp).endEpoch = some e
      ∧ (buildSleep "1970-01-02" (some "1970-01-02") c2slp).duration_minutes
          = some (truncDiv60 ((e : Int) - (s : Int)))
      ∧ (s ≤ e → truncDiv60 ((e : Int) - (s : Int)) = ((e - s) / 60 : Nat)) :=
  sleep_duration_trunc c2days "1970-01-02" _ (by decide)

/-! ## Sleep records in the XML export (claim C3) -/

theorem length_filterMap_eq (f : α → Option β) (l : List α) :
    (l.filterMap f).length = (l.filter fun a => (f a).isSome).length := by
  induction l with
  | nil => simp
  | cons h t ih =>
    cases hf : f h <;> simp [List.filterMap_cons, List.filter_cons, hf, ih]

/-- C3 (amended): a sleep session with a nonempty stage list and a valid
start and end yields one record per stage found in the fixed
`ZEPP_TO_APPLE_SLEEP` table (stages outside the table are omitted), plus one
InBed record spanning start..end, hence N classified stages give N+1
records; a session with an empty stage list is skipped entirely and yields 0
records, InBed included. -/
theorem sleep_export_records :
    (∀ (wake : String) (sl : SleepRes) (st ed : Nat),
      sl.stages ≠ [] → sl.startEpoch = some st → sl.endEpoch = some ed →
      sleepRecordsFor wake (some sl)
        = (sl.stages.filterMap fun sg =>
            (zeppToApple.lookup sg.stage).map fun v =>
              { rtype := "HKCategoryTypeIdentifierSleepAnalysis"
                unit := none
                value := v
                startDT := minuteToDT (sl.fetched_from.getD wake) sg.start_minute
                endDT := minuteToDT (sl.fetched_from.getD wake) sg.end_minute })
          ++ [{ rtype := "HKCategoryTypeIdentifierSleepAnalysis"
                unit := none
                value := "HKCategoryValueSleepAnalysisInBed"
                startDT := epochToDT st
                endDT := epochToDT ed }]
      ∧ (sleepRecordsFor wake (some sl)).length
          = (sl.stages.filter fun sg => (zeppToApple.lookup sg.stage).isSome).length + 1)
    ∧ zeppToApple.lookup "light" = some "HKCategoryValueSleepAnalysisAsleepCore"
    ∧ zeppToApple.lookup "deep" = some "HKCategoryValueSleepAnalysisAsleepDeep"
    ∧ zeppToApple.lookup "rem" = some "HKCategoryValueSleepAnalysisAsleepREM"
    ∧ zeppToApple.lookup "awake" = some "HKCategoryValueSleepAnalysisAwake"
    ∧ (∀ s : String, s ≠ "light" → s ≠ "deep" → s ≠ "rem" → s ≠ "awake" →
        zeppToApple.lookup s = none) := by
  refine ⟨?_, rfl, rfl, rfl, rfl, ?_⟩
  · intro wake sl st ed hne hst hed
    have hrec : sleepRecordsFor wake (some sl)
        = (sl.stages.filterMap fun sg =>
            (zeppToApple.lookup sg.stage).map fun v =>
              ({ rtype := "HKCategoryTypeIdentifierSleepAnalysis"
                 unit := none
                 value := v
                 startDT := minuteToDT (sl.fetched_from.getD wake) sg.start_minute
                 endDT := minuteToDT (sl.fetched_from.getD wake) sg.end_minute } : XRecord))
          ++ [{ rtype := "HKCategoryTypeIdentifierSleepAnalysis"
                unit := none
                value := "HKCategoryValueSleepAnalysisInBed"
                startDT := epochToDT st
                endDT := epochToDT ed }] := by
      simp [sleepRecordsFor, hne, hst, hed]
    refine ⟨hrec, ?_⟩
    rw [hrec]
    simp [length_filterMap_eq]
  · intro s h1 h2 h3 h4
    have e1 : (s == "light") = false := beq_eq_false_iff_ne.mpr h1
    have e2 : (s == "deep") = false := beq_eq_false_iff_ne.mpr h2
    have e3 : (s == "rem") = false := beq_eq_false_iff_ne.mpr h3
    have e4 : (s == "awake") = false := beq_eq_false_iff_ne.mpr h4
    simp [zeppToApple, List.lookup, e1, e2, e3, e4]

/-- Counterexample for C3 as stated: a session with an empty stage list but a
valid start and end is skipped entirely, producing 0 records where the claim
demands 0 + 1 = 1 (the InBed record). -/
theorem sleep_export_empty_stages_cex :
    sleepRecordsFor "1970-01-02" (some c3empty) = []
      ∧ c3empty.startEpoch.isSome = true ∧ c3empty.endEpoch.isSome = true
      ∧ (sleepRecordsFor "1970-01-02" (some c3empty)).length ≠ 0 + 1 := by
  exact ⟨rfl, rfl, rfl, by decide⟩

/-- Witness for C3 (amended) at the spec's four-stage example session. -/
theorem sleep_export_records_witness :
    (sleepRecordsFor "1970-01-02" (some c3full)).length
        = (c3full.stages.filter fun sg => (zeppToApple.lookup sg.stage).isSome).length + 1
      ∧ (sleepRecordsFor "1970-01-02" (some c3full)).length = 5 :=
  ⟨(sleep_export_records.1 "1970-01-02" c3full 82800 111600 (by decide) rfl rfl).2,
   by decide⟩

/-! ## Decode-failure downgrading in `_fetch_band_data` (claim C4) -/

/-- C4 (amended): when a day's summary blob fails to decode with a
`ZeppDecodeError`, the error is not propagated: the day's `summary` is set
to `None` (absent sleep data).  The heart-rate fields are decoded
independently of the summary; they are set to empty lists exactly when the
heart-rate blob itself fails with a `ZeppDecodeError`.  (The hypothesis on
`data_hr` only excludes the unrelated loop crash from an uncaught
`ValueError` on a non-ASCII heart-rate field.) -/
theorem summary_decode_downgrade :
    ∀ (day : RawDay) (s m : String),
      day.summary = some s → decodeSummary s = .error (.decodeError m) →
      (day.data_hr = none
        ∨ ∃ t, day.data_hr = some t ∧ isUncaught (decodeHeartRate t) = false) →
      ∃ fd, fetchDay day = .ok fd
        ∧ fd.summary = some none
        ∧ fd.heart_rate = day.data_hr.map (fun hrs =>
            match decodeHeartRate hrs with
            | .ok v => v
            | .error _ => [])
        ∧ (∀ hrs m', day.data_hr = some hrs →
            decodeHeartRate hrs = .error (.decodeError m') →
            fd.heart_rate = some [] ∧ fd.heart_rate_raw = some []) := by
  intro day s m hs hd hnc
  have hsf : fetchSummaryField day.summary = .ok (some none) := by
    rw [hs]
    simp [fetchSummaryField, hd]
  rcases hnc with hnone | ⟨t, ht, hu⟩
  · refine ⟨⟨day.date_time, some none, none, none,
        day.data.bind fun s' =>
          match b64decode s' with
          | .ok bs => some bs.length
          | .error _ => none⟩, ?_, rfl, ?_, ?_⟩
    · unfold fetchDay
      rw [hsf, hnone]
      rfl
    · simp [hnone]
    · intro hrs m' h1 h2
      rw [hnone] at h1
      simp at h1
  · cases hb : b64decode t with
    | ok bs =>
      have hd1 : decodeHeartRate t = .ok (hrFromBytes bs) := by
        simp [decodeHeartRate, hb]
      have hd2 : decodeHeartRateRaw t = .ok bs := by
        simp [decodeHeartRateRaw, hb]
      refine ⟨⟨day.date_time, some none, some (hrFromBytes bs), some bs,
          day.data.bind fun s' =>
            match b64decode s' with
            | .ok l => some l.length
            | .error _ => none⟩, ?_, rfl, ?_, ?_⟩
      · unfold fetchDay
        rw [hsf, ht]
        simp [fetchHrFields, hd1, hd2]
      · simp [ht, hd1]
      · intro hrs m' h1 h2
        rw [ht] at h1
        injection h1 with h1'
        rw [← h1', hd1] at h2
        exact absurd h2 (by simp)
    | error e =>
      cases e with
      | binascii mb =>
        have hd1 : decodeHeartRate t
            = .error (.decodeError ("Failed to decode heart rate data: " ++ mb)) := by
          simp [decodeHeartRate, hb]
        have hd2 : decodeHeartRateRaw t
            = .error (.decodeError ("Failed to decode heart rate data: " ++ mb)) := by
          simp [decodeHeartRateRaw, hb]
        refine ⟨⟨day.date_time, some none, some [], some [],
            day.data.bind fun s' =>
              match b64decode s' with
              | .ok l => some l.length
              | .error _ => none⟩, ?_, rfl, ?_, ?_⟩
        · unfold fetchDay
          rw [hsf, ht]
          simp [fetchHrFields, hd1]
        · simp [ht, hd1]
        · intro hrs m' h1 h2
          exact ⟨rfl, rfl⟩
      | valueError mv =>
        exfalso
        have : isUncaught (decodeHeartRate t) = true := by
          simp [decodeHeartRate, hb, isUncaught]
        rw [this] at hu
        exact absurd hu (by simp)

/-- Counterexample for C4 as stated: `c4day` has an undecodable summary blob
(a caught `ZeppDecodeError`) but a decodable heart-rate blob, so its
heart-rate list is nonempty, not empty. -/
theorem summary_decode_downgrade_cex :
    (∃ m, decodeSummary "a" = .error (.decodeError m))
      ∧ (∃ fd, fetchDay c4day = .ok fd ∧ fd.summary = some none
          ∧ fd.heart_rate = some [⟨0, "00:00", 72⟩])
      ∧ some [(⟨0, "00:00", 72⟩ : HRSample)] ≠ some ([] : List HRSample) := by
  exact ⟨⟨"Failed to decode summary: Invalid base64-encoded string", rfl⟩,
         ⟨_, rfl, rfl, rfl⟩, by decide⟩

/-- Witness for C4 (amended) at the concrete day `c4day`. -/
theorem summary_decode_downgrade_witness :
    ∃ fd, fetchDay c4day = .ok fd
      ∧ fd.summary = some none
      ∧ fd.heart_rate = c4day.data_hr.map (fun hrs =>
          match decodeHeartRate hrs with
          | .ok v => v
          | .error _ => [])
      ∧ (∀ hrs m', c4day.data_hr = some hrs →
          decodeHeartRate hrs = .error (.decodeError m') →
          fd.heart_rate = some [] ∧ fd.heart_rate_raw = some []) :=
  summary_decode_downgrade c4day "a"
    "Failed to decode summary: Invalid base64-encoded string" rfl rfl
    (Or.inr ⟨"SA==", rfl, rfl⟩)

/-! ## `decode_summary` contract (claim C7) -/

theorem b64val_b64chr : ∀ v : Nat, v < 64 → b64val (b64chr v) = some v := by
  decide

theorem b64chr_ne_pad : ∀ v : Nat, v < 64 → ¬(b64chr v = '=') := by
  decide

/-- Decoding the base64 encoding of a byte sequence replays the encoder's
6-bit groups through the `a2b_base64` state machine. -/
theorem a2bAux_enc (bs : List Nat) (h : ∀ b ∈ bs, b < 256) : ∀ acc,
    a2bAux (b64encodeBytes bs) 0 0 0 acc = .ok (acc.reverse ++ bs) := by
  induction bs using b64encodeBytes.induct with
  | case1 => intro acc; simp [b64encodeBytes, a2bAux]
  | case2 b1 =>
    intro acc
    have h1 : b1 < 256 := h b1 (by simp)
    have ne1 := b64chr_ne_pad (b1 / 4) (by omega)
    have ne2 := b64chr_ne_pad (b1 % 4 * 16) (by omega)
    have e1 := b64val_b64chr (b1 / 4) (by omega)
    have e2 := b64val_b64chr (b1 % 4 * 16) (by omega)
    simp [b64encodeBytes, a2bAux, ne1, ne2, e1, e2]
    omega
  | case3 b1 b2 =>
    intro acc
    have h1 : b1 < 256 := h b1 (by simp)
    have h2 : b2 < 256 := h b2 (by simp)
    have ne1 := b64chr_ne_pad (b1 / 4) (by omega)
    have ne2 := b64chr_ne_pad (b1 % 4 * 16 + b2 / 16) (by omega)
    have ne3 := b64chr_ne_pad (b2 % 16 * 4) (by omega)
    have e1 := b64val_b64chr (b1 / 4) (by omega)
    have e2 := b64val_b64chr (b1 % 4 * 16 + b2 / 16) (by omega)
    have e3 := b64val_b64chr (b2 % 16 * 4) (by omega)
    simp [b64encodeBytes, a2bAux, ne1, ne2, ne3, e1, e2, e3]
    constructor <;> omega
  | case4 b1 b2 b3 rest ih =>
    intro acc
    have h1 : b1 < 256 := h b1 (by simp)
    have h2 : b2 < 256 := h b2 (by simp)
    have h3 : b3 < 256 := h b3 (by simp)
    have hr : ∀ b ∈ rest, b < 256 := fun b hb => h b (by simp [hb])
    have ne1 := b64chr_ne_pad (b1 / 4) (by omega)
    have ne2 := b64chr_ne_pad (b1 % 4 * 16 + b2 / 16) (by omega)
    have ne3 := b64chr_ne_pad (b2 % 16 * 4 + b3 / 64) (by omega)
    have ne4 := b64chr_ne_pad (b3 % 64) (by omega)
    have e1 := b64val_b64chr (b1 / 4) (by omega)
    have e2 := b64val_b64chr (b1 % 4 * 16 + b2 / 16) (by omega)
    have e3 := b64val_b64chr (b2 % 16 * 4 + b3 / 64) (by omega)
    have e4 := b64val_b64chr (b3 % 64) (by omega)
    have eb1 : b1 / 4 * 4 + (b1 % 4 * 16 + b2 / 16) / 16 = b1 := by omega
    have eb2 : (b1 % 4 * 16 + b2 / 16) % 16 * 16 + (b2 % 16 * 4 + b3 / 64) / 4 = b2 := by
      omega
    have eb3 : (b2 % 16 * 4 + b3 / 64) % 4 * 64 + b3 % 64 = b3 := by omega
    have := ih hr (b3 :: b2 :: b1 :: acc)
    simp only [b64encodeBytes, a2bAux, ne1, ne2, ne3, ne4, e1, e2, e3, e4,
               if_neg, eb1, eb2, eb3] at this ⊢
    simpa using this

theorem b64chr_lt_128 (v : Nat) : (b64chr v).toNat < 128 := by
  by_cases h : v < 64
  · exact (show ∀ w : Nat, w < 64 → (b64chr w).toNat < 128 by decide) v h
  · unfold b64chr
    rw [if_neg (by omega), if_neg (by omega), if_neg (by omega), if_neg (by omega)]
    decide

/-- The base64 encoder only emits ASCII characters, so the str→ASCII step of
`b64decode` always passes on an encoder output. -/
theorem b64encodeBytes_ascii (bs : List Nat) :
    ((b64encodeBytes bs).all fun c => c.toNat < 128) = true := by
  induction bs using b64encodeBytes.induct with
  | case1 => simp [b64encodeBytes]
  | case2 b1 => simp [b64encodeBytes, b64chr_lt_128]
  | case3 b1 b2 => simp [b64encodeBytes, b64chr_lt_128]
  | case4 b1 b2 b3 rest ih => simp [b64encodeBytes, b64chr_lt_128, ih]

/-- `b64decode (b64encode bs) = bs` for byte sequences. -/
theorem b64_roundtrip (bs : List Nat) (h : ∀ b ∈ bs, b < 256) :
    b64decode (b64encode bs) = .ok bs := by
  have hl : (String.mk (b64encodeBytes bs)).toList = b64encodeBytes bs := rfl
  unfold b64decode b64encode
  rw [hl, if_pos (b64encodeBytes_ascii bs), a2bAux_enc bs h []]
  rfl

/-- C7 (amended): `decode_summary` raises a `ZeppDecodeError` exactly for a
`binascii.Error` from the non-strict base64 decode -- an invalid
quad/padding structure after non-alphabet ASCII characters are discarded --
or for decoded bytes that are not valid JSON under `json.loads`' encoding
detection; an input containing a non-ASCII character instead raises a plain
`ValueError` from base64's str→ASCII step, which `decode_summary` does not
catch; an invalid-alphabet ASCII character alone does not cause failure; for
every base64 encoding of JSON-parsable bytes it returns the parsed value. -/
theorem decode_summary_contract :
    (∀ s : String,
      b64decode s = .error (.valueError "string argument should contain only ASCII characters")
        ↔ ∃ c ∈ s.toList, 128 ≤ c.toNat)
    ∧ (∀ s m, b64decode s = .error (.valueError m) →
      decodeSummary s = .error (.uncaught m))
    ∧ (∀ s m, b64decode s = .error (.binascii m) →
      decodeSummary s = .error (.decodeError ("Failed to decode summary: " ++ m)))
    ∧ (∀ s bs e, b64decode s = .ok bs → jsonParseBytes bs = .error e →
      decodeSummary s = .error (.decodeError ("Failed to decode summary: " ++ e)))
    ∧ (∀ bs v, (∀ b ∈ bs, b < 256) → jsonParseBytes bs = .ok v →
      decodeSummary (b64encode bs) = .ok v) := by
  refine ⟨?_, ?_, ?_, ?_, ?_⟩
  · intro s
    unfold b64decode
    by_cases hall : (s.toList.all fun c => c.toNat < 128) = true
    · rw [if_pos hall]
      constructor
      · intro h
        cases ha : a2bAux s.toList 0 0 0 [] with
        | ok bs => rw [ha] at h; exact absurd h (by simp)
        | error m => rw [ha] at h; exact absurd h (by simp)
      · intro ⟨c, hc, h128⟩
        have := List.all_eq_true.mp hall c hc
        simp at this
        omega
    · rw [if_neg hall]
      refine iff_of_true rfl ?_
      obtain ⟨c, hc, hp⟩ := List.all_eq_false.mp (Bool.eq_false_iff.mpr hall)
      have h128 : ¬c.toNat < 128 := by simpa using hp
      exact ⟨c, hc, by omega⟩
  · intro s m h; simp [decodeSummary, h]
  · intro s m h; simp [decodeSummary, h]
  · intro s bs e h1 h2; simp [decodeSummary, h1, h2]
  · intro bs v hb hj; simp [decodeSummary, b64_roundtrip bs hb, hj]

/-- Counterexample for C7 as stated: "!" is outside the base64 alphabet, yet
`decode_summary` succeeds on "!W10=" (Python's non-strict `b64decode`
discards the invalid ASCII character and decodes the rest to the JSON
`[]`). -/
theorem decode_summary_alphabet_cex :
    decodeSummary "!W10=" = .ok (Json.arr []) ∧ b64val '!' = none :=
  ⟨rfl, rfl⟩

/-- Witness for C7 (amended): a bad-padding input, a
valid-base64-but-not-JSON input, a round-tripped JSON value, a non-ASCII
input whose ValueError escapes, and a BOM'd UTF-16 payload that parses. -/
theorem decode_summary_contract_witness :
    decodeSummary "a"
        = .error (.decodeError ("Failed to decode summary: " ++ "Invalid base64-encoded string"))
      ∧ decodeSummary "AA=="
        = .error (.decodeError ("Failed to decode summary: " ++ "Expecting value"))
      ∧ decodeSummary (b64encode [91, 93]) = .ok (Json.arr [])
      ∧ decodeSummary "A€"
        = .error (.uncaught "string argument should contain only ASCII characters")
      ∧ decodeSummary (b64encode [255, 254, 91, 0, 93, 0]) = .ok (Json.arr []) :=
  ⟨decode_summary_contract.2.2.1 "a" _ rfl,
   decode_summary_contract.2.2.2.1 "AA==" [0] _ rfl rfl,
   decode_summary_contract.2.2.2.2 [91, 93] (Json.arr []) (by decide) rfl,
   decode_summary_contract.2.1 "A€" _ rfl,
   decode_summary_contract.2.2.2.2 [255, 254, 91, 0, 93, 0] (Json.arr []) (by decide) rfl⟩

/-! ## `decode_stress_data` contract (claim C8) -/

/-- C8: `decode_stress_data` returns the empty array for "[]" (not an
error), fails with a DecodeError on `None` and on text that is not valid
JSON, and returns the parsed value for valid JSON text. -/
theorem decode_stress_contract :
    decodeStressData (some "[]") = .ok (Json.arr [])
    ∧ decodeStressData none = .error "Failed to decode stress data: TypeError"
    ∧ (∃ e, decodeStressData (some "not json") = .error e)
    ∧ (∀ s e, jsonParse (strCps s) = .error e →
        decodeStressData (some s) = .error ("Failed to decode stress data: " ++ e))
    ∧ (∀ s v, jsonParse (strCps s) = .ok v → decodeStressData (some s) = .ok v) := by
  refine ⟨rfl, rfl, ⟨_, rfl⟩, ?_, ?_⟩
  · intro s e h; simp [decodeStressData, h]
  · intro s v h; simp [decodeStressData, h]

/-- Witness for C8 at a malformed and a well-formed JSON string. -/
theorem decode_stress_contract_witness :
    decodeStressData (some "nope") = .error ("Failed to decode stress data: " ++ "Expecting value")
      ∧ decodeStressData (some "[1]") = .ok (Json.arr [Json.num false 1 [] none]) :=
  ⟨decode_stress_contract.2.2.2.1 "nope" _ rfl,
   decode_stress_contract.2.2.2.2 "[1]" _ rfl⟩

/-! ## `get_stress` never raises a decode error (claim C10) -/

/-- C10: `get_stress` builds one record per item; `readings` is the decoded
array exactly when the item's `data` field is a string starting with "[" that
parses as JSON, and the empty list in every other case (absent, non-string,
non-bracketed, malformed); the aggregate fields are returned either way, and
no decode error escapes (the construction is total). -/
theorem stress_readings_contract :
    ∀ (items : List StressItem),
      getStress items = items.map mkStressRecord
      ∧ ∀ item : StressItem,
          (mkStressRecord item).timestamp = item.timestamp
          ∧ (mkStressRecord item).avg_stress = item.avgStress
          ∧ (mkStressRecord item).max_stress = item.maxStress
          ∧ (mkStressRecord item).min_stress = item.minStress
          ∧ (item.data = none → (mkStressRecord item).readings = Json.arr [])
          ∧ (∀ s, item.data = some s → startsWithBracket s = false →
              (mkStressRecord item).readings = Json.arr [])
          ∧ (∀ s e, item.data = some s → startsWithBracket s = true →
              decodeStressData (some s) = .error e →
              (mkStressRecord item).readings = Json.arr [])
          ∧ (∀ s v, item.data = some s → startsWithBracket s = true →
              decodeStressData (some s) = .ok v →
              (mkStressRecord item).readings = v) := by
  intro items
  refine ⟨rfl, ?_⟩
  intro item
  refine ⟨rfl, rfl, rfl, rfl, ?_, ?_, ?_, ?_⟩
  · intro h; simp [mkStressRecord, h]
  · intro s h hns; simp [mkStressRecord, h, hns]
  · intro s e h hsw hd; simp [mkStressRecord, h, hsw, hd]
  · intro s v h hsw hd; simp [mkStressRecord, h, hsw, hd]

/-- Witness for C10 at the concrete item `c10item`. -/
theorem stress_readings_contract_witness :
    (mkStressRecord c10item).readings = Json.arr [Json.num false 1 [] none]
      ∧ (mkStressRecord c10item).avg_stress = c10item.avgStress :=
  ⟨((stress_readings_contract []).2 c10item).2.2.2.2.2.2.2 "[1]"
      (Json.arr [Json.num false 1 [] none]) rfl rfl rfl,
   ((stress_readings_contract []).2 c10item).2.1⟩

/-! ## Export timestamps (claim C9) -/

theorem dateLt_nextDay (d : Date) : dateLt d (nextDay d) := by
  unfold nextDay
  split
  · exact Or.inr ⟨rfl, Or.inr ⟨rfl, Nat.lt_succ_self _⟩⟩
  · split
    · exact Or.inr ⟨rfl, Or.inl (Nat.lt_succ_self _)⟩
    · exact Or.inl (Nat.lt_succ_self _)

theorem dateLt_trans {a b c : Date} (h1 : dateLt a b) (h2 : dateLt b c) :
    dateLt a c := by
  unfold dateLt at h1 h2 ⊢
  omega

theorem dateLt_addDays (d : Date) (k : Nat) (hk : 0 < k) :
    dateLt d (addDays d k) := by
  induction k with
  | zero => omega
  | succ n ih =>
    rcases Nat.eq_zero_or_pos n with h0 | hpos
    · subst h0
      show dateLt d (nextDay (addDays d 0))
      exact dateLt_nextDay d
    · exact dateLt_trans (ih hpos) (dateLt_nextDay _)

theorem mem_insertSorted {α : Type} (p q : String × α) (l : List (String × α)) :
    q ∈ insertSorted p l ↔ q = p ∨ q ∈ l := by
  induction l with
  | nil => simp [insertSorted]
  | cons r t ih =>
    unfold insertSorted
    split
    · simp [List.mem_cons]
      try tauto
    · simp [List.mem_cons, ih]
      try tauto

theorem mem_sortByKey {α : Type} (l : List (String × α)) (q : String × α) :
    q ∈ sortByKey l ↔ q ∈ l := by
  suffices h : ∀ acc, (q ∈ l.foldl (fun acc p => insertSorted p acc) acc
      ↔ q ∈ acc ∨ q ∈ l) by
    simpa [sortByKey] using h []
  induction l with
  | nil => intro acc; simp
  | cons p t ih =>
    intro acc
    simp only [List.foldl_cons]
    rw [ih]
    simp [mem_insertSorted, List.mem_cons]
    tauto

theorem lookup_val_mem {α β : Type} [BEq α] :
    ∀ (l : List (α × β)) (a : α) (v : β),
      l.lookup a = some v → ∃ k, (k, v) ∈ l := by
  intro l
  induction l with
  | nil => intro a v h; simp [List.lookup] at h
  | cons p t ih =>
    intro a v h
    obtain ⟨k, b⟩ := p
    cases hb : a == k with
    | true =>
      simp only [List.lookup, hb] at h
      cases h
      exact ⟨k, by simp⟩
    | false =>
      simp only [List.lookup, hb] at h
      obtain ⟨k', hk⟩ := ih a v h
      exact ⟨k', by simp [hk]⟩

theorem zeppToApple_ne_inbed {s v : String}
    (h : zeppToApple.lookup s = some v) :
    v ≠ "HKCategoryValueSleepAnalysisInBed" := by
  obtain ⟨k, hk⟩ := lookup_val_mem zeppToApple s v h
  simp [zeppToApple] at hk
  rcases hk with ⟨_, rfl⟩ | ⟨_, rfl⟩ | ⟨_, rfl⟩ | ⟨_, rfl⟩ <;> decide

/-- C9 (amended): heart-rate, step-count and sleep-stage record timestamps
come from adding the record's minute value to local midnight of the record's
source date (for sleep stages, the fetched-from day, falling back to the wake
date when absent); a minute value m lands m/1440 calendar days after the
base date, strictly later for m ≥ 1440; InBed record timestamps come instead
from the session's start/end datetimes; every formatted timestamp string
ends with the configured UTC-offset suffix. -/
theorem export_timestamp_spec :
    (∀ (dateStr : String) (m : Nat),
      (minuteToDT dateStr m).date = addDays (parseDate dateStr) (m / 1440)
        ∧ (minuteToDT dateStr m).sod = m % 1440 * 60)
    ∧ (∀ (dateStr : String) (m : Nat), 1440 ≤ m →
        dateLt (parseDate dateStr) (minuteToDT dateStr m).date)
    ∧ (∀ (data : List (String × List HRSample)) (rec : XRecord),
        rec ∈ hrRecords data →
        ∃ p, p ∈ data ∧ ∃ r, r ∈ p.2
          ∧ rec.startDT = minuteToDT p.1 r.minute
          ∧ rec.endDT = minuteToDT p.1 r.minute)
    ∧ (∀ (data : List (String × Option StepsRes)) (rec : XRecord),
        rec ∈ stepsRecords data →
        ∃ p, p ∈ data ∧ rec.startDT = minuteToDT p.1 0
          ∧ rec.endDT = minuteToDT p.1 1439)
    ∧ (∀ (wake : String) (sl : SleepRes) (rec : XRecord),
        rec ∈ sleepRecordsFor wake (some sl) →
        (rec.value ≠ "HKCategoryValueSleepAnalysisInBed" →
          ∃ sg, sg ∈ sl.stages
            ∧ rec.startDT = minuteToDT (sl.fetched_from.getD wake) sg.start_minute
            ∧ rec.endDT = minuteToDT (sl.fetched_from.getD wake) sg.end_minute)
        ∧ (rec.value = "HKCategoryValueSleepAnalysisInBed" →
          ∃ st ed, sl.startEpoch = some st ∧ sl.endEpoch = some ed
            ∧ rec.startDT = epochToDT st ∧ rec.endDT = epochToDT ed))
    ∧ (∀ (dt : DateTime) (off : Int), ∃ p, appleDate dt off = p ++ offsetStr off) := by
  refine ⟨?_, ?_, ?_, ?_, ?_, ?_⟩
  · intro dateStr m
    constructor
    · show addDays (parseDate dateStr) (m * 60 / 86400) = addDays (parseDate dateStr) (m / 1440)
      congr 1
      omega
    · show m * 60 % 86400 = m % 1440 * 60
      omega
  · intro dateStr m hm
    have hd : (minuteToDT dateStr m).date = addDays (parseDate dateStr) (m / 1440) := by
      show addDays (parseDate dateStr) (m * 60 / 86400) = addDays (parseDate dateStr) (m / 1440)
      congr 1
      omega
    rw [hd]
    exact dateLt_addDays _ _ (by omega)
  · intro data rec hmem
    simp only [hrRecords, listFlatMap, List.mem_flatten, List.mem_map] at hmem
    obtain ⟨_, ⟨p, hp, rfl⟩, hr⟩ := hmem
    obtain ⟨r, hr2, rfl⟩ := List.mem_map.mp hr
    exact ⟨p, (mem_sortByKey data p).mp hp, r, hr2, rfl, rfl⟩
  · intro data rec hmem
    simp only [stepsRecords, listFlatMap, List.mem_flatten, List.mem_map] at hmem
    obtain ⟨_, ⟨p, hp, rfl⟩, hr⟩ := hmem
    refine ⟨p, (mem_sortByKey data p).mp hp, ?_⟩
    cases hps : p.2 with
    | none => simp [hps] at hr
    | some st =>
      by_cases hz : (st.total_steps.getD 0 == 0) = true
      · simp [hps, hz] at hr
      · simp [hps, hz] at hr
        rw [hr]
        exact ⟨rfl, rfl⟩
  · intro wake sl rec hmem
    simp only [sleepRecordsFor] at hmem
    by_cases hne : sl.stages = []
    · simp [hne] at hmem
    · simp only [if_neg hne, List.mem_append] at hmem
      rcases hmem with hstage | hbed
      · obtain ⟨sg, hsg, hrec⟩ := List.mem_filterMap.mp hstage
        cases hlk : zeppToApple.lookup sg.stage with
        | none => rw [hlk] at hrec; simp at hrec
        | some v =>
          rw [hlk] at hrec
          simp only [Option.map] at hrec
          cases hrec
          constructor
          · intro _
            exact ⟨sg, hsg, rfl, rfl⟩
          · intro hv
            exact absurd hv (zeppToApple_ne_inbed hlk)
      · cases hst : sl.startEpoch with
        | none => rw [hst] at hbed; simp at hbed
        | some st =>
          cases hed : sl.endEpoch with
          | none => rw [hst, hed] at hbed; simp at hbed
          | some ed =>
            rw [hst, hed] at hbed
            simp only [List.mem_singleton] at hbed
            cases hbed
            constructor
            · intro hv
              exact absurd rfl hv
            · intro _
              exact ⟨st, ed, rfl, rfl, rfl, rfl⟩
  · intro dt off
    exact ⟨formatDate dt.date ++ " " ++ formatTime dt.sod ++ " ", rfl⟩

/-- Counterexample for C9 as stated: the InBed record of `c9sleep` starts at
1970-01-01 23:00, which is not local midnight of its source date 1970-01-02
plus any minute-of-day value. -/
theorem export_inbed_timestamp_cex :
    (sleepRecordsFor "1970-01-02" (some c9sleep)).map XRecord.startDT
        = [minuteToDT "1970-01-02" 1410, ⟨⟨1970, 1, 1⟩, 82800⟩]
      ∧ ¬∃ m : Nat,
          minuteToDT "1970-01-02" m = (⟨⟨1970, 1, 1⟩, 82800⟩ : DateTime) := by
  constructor
  · rfl
  · rintro ⟨m, hm⟩
    have hdate : addDays (parseDate "1970-01-02") (m * 60 / 86400) = ⟨1970, 1, 1⟩ :=
      congrArg DateTime.date hm
    have hp : parseDate "1970-01-02" = ⟨1970, 1, 2⟩ := rfl
    rw [hp] at hdate
    rcases Nat.eq_zero_or_pos (m * 60 / 86400) with h0 | hpos
    · rw [h0] at hdate
      exact absurd hdate (by decide)
    · have hlt := dateLt_addDays ⟨1970, 1, 2⟩ _ hpos
      rw [hdate] at hlt
      revert hlt
      unfold dateLt
      decide

/-- Witness for C9 (amended) at minute 1500 of 1970-01-02, the offset -6, and
a concrete heart-rate export. -/
theorem export_timestamp_spec_witness :
    dateLt (parseDate "1970-01-02") (minuteToDT "1970-01-02" 1500).date
      ∧ (∃ p, appleDate ⟨⟨1970, 1, 1⟩, 82800⟩ (-6) = p ++ offsetStr (-6))
      ∧ (∃ q, q ∈ [("1970-01-02", [(⟨3, "00:03", 72⟩ : HRSample)])]
          ∧ ∃ r, r ∈ q.2
          ∧ ({ rtype := "HKQuantityTypeIdentifierHeartRate"
               unit := some "count/min"
               value := toString (72 : Nat)
               startDT := minuteToDT "1970-01-02" 3
               endDT := minuteToDT "1970-01-02" 3 } : XRecord).startDT
              = minuteToDT q.1 r.minute
          ∧ ({ rtype := "HKQuantityTypeIdentifierHeartRate"
               unit := some "count/min"
               value := toString (72 : Nat)
               startDT := minuteToDT "1970-01-02" 3
               endDT := minuteToDT "1970-01-02" 3 } : XRecord).endDT
              = minuteToDT q.1 r.minute) :=
  ⟨export_timestamp_spec.2.1 "1970-01-02" 1500 (by omega),
   export_timestamp_spec.2.2.2.2.2 ⟨⟨1970, 1, 1⟩, 82800⟩ (-6),
   export_timestamp_spec.2.2.1 [("1970-01-02", [⟨3, "00:03", 72⟩])] _ (by decide)⟩

end ZeppExport
